import Mathlib

/-!
Verification development for the `resize_image.py` image-resizer script.

The script is a thin pipeline over the PIL imaging library:
open file → normalize pixel mode → resample → derive output path → save →
report.  We embed the script and the PIL operations it calls shallowly:

* an in-memory image is a `PILImage` (mode, dimensions, row-major pixel
  list, palette);
* the filesystem is a flat association list from paths (char lists) to
  file data; a file either decodes to an image or is invalid;
* the resampling kernel of `Image.resize` is an explicit parameter
  (`SampleFn`): the script only chooses the filter and the target size,
  the kernel itself lives in the library;
* pixel-level PIL operations that the script's behaviour depends on
  (`Image.new`, `convert("RGBA")`, `paste` with and without a mask) are
  embedded concretely, following PIL's documented semantics and the
  fixed-point blending arithmetic of its paste implementation;
* `sys.exit` / process termination is modelled by the `exit` field of a
  `RunResult`; stdout lines are modelled by the inductive `Msg`.
-/

/-- A pixel as stored in our image model.  Interpretation depends on the
image mode: `L` uses `r` as the gray value, `LA` uses `r` (gray) and `a`
(alpha), `P` uses `r` as a palette index, `RGB` uses `r`,`g`,`b` (with `a`
kept at 255), `RGBA` uses all four channels.  Channel values are 0–255. -/
structure Pix where
  r : Nat
  g : Nat
  b : Nat
  a : Nat
deriving DecidableEq

/-- The PIL pixel modes the script mentions: truecolor, truecolor+alpha,
grayscale, grayscale+alpha and palette-indexed. -/
inductive Mode
  | L
  | LA
  | P
  | RGB
  | RGBA
deriving DecidableEq

/-- An in-memory decoded bitmap: pixel mode, dimensions, row-major pixel
data (length `width * height` for well-formed images) and, for `P` mode,
the palette (RGBA entries, indexed by the pixel value). -/
structure PILImage where
  mode : Mode
  width : Nat
  height : Nat
  data : List Pix
  palette : List Pix
deriving DecidableEq

/-- The resampling filters of `PIL.Image.Resampling`; the script always
passes `LANCZOS`. -/
inductive ResampleFilter
  | nearest
  | box
  | bilinear
  | hamming
  | bicubic
  | lanczos
deriving DecidableEq

/-- The resampling kernel of `Image.resize`: given the filter, the source
image, the target width and height and the output pixel coordinates, it
produces the output pixel.  The kernel is library code (C, fixed-point
Lanczos convolution); the script's claims are parametric in it. -/
abbrev SampleFn := ResampleFilter → PILImage → Nat → Nat → Nat → Nat → Pix

/-- The solid white `(255, 255, 255)` used for the background canvas. -/
def whitePix : Pix := ⟨255, 255, 255, 255⟩

/-- `Image.new("RGB", (w, h), color)`: a fresh truecolor image filled with
the given color (stored fully opaque). -/
def pilNewRGB (w h : Nat) (c : Pix) : PILImage :=
  ⟨Mode.RGB, w, h, List.replicate (w * h) ⟨c.r, c.g, c.b, 255⟩, []⟩

/-- `img.convert("RGBA")` on a palette image: every pixel index is looked
up in the (RGBA) palette; out-of-range indices read the PIL default black
entry. -/
def convertPtoRGBA (img : PILImage) : PILImage :=
  ⟨Mode.RGBA, img.width, img.height,
    img.data.map (fun p => img.palette.getD p.r ⟨0, 0, 0, 255⟩), []⟩

/-- Conversion of a source image's pixel data to RGB, as `paste` performs
when the source mode differs from the destination's `RGB`: gray modes
replicate the gray value, palette pixels go through the palette, and any
alpha channel is dropped. -/
def convertToRGBData (img : PILImage) : List Pix :=
  match img.mode with
  | Mode.L => img.data.map (fun p => ⟨p.r, p.r, p.r, 255⟩)
  | Mode.LA => img.data.map (fun p => ⟨p.r, p.r, p.r, 255⟩)
  | Mode.P => img.data.map (fun p =>
      let q := img.palette.getD p.r ⟨0, 0, 0, 255⟩
      ⟨q.r, q.g, q.b, 255⟩)
  | _ => img.data.map (fun p => ⟨p.r, p.g, p.b, 255⟩)

/-- PIL's fixed-point `a * b / 255` with rounding, the `MULDIV255` macro
of the paste implementation: `tmp = a*b + 128; ((tmp >> 8) + tmp) >> 8`. -/
def mulDiv255 (a b : Nat) : Nat :=
  ((a * b + 128) / 256 + (a * b + 128)) / 256

/-- One channel of a masked paste: destination weighted by `255 - mask`
plus source weighted by `mask` (the `BLEND` macro of PIL's paste). -/
def blendChan (mask dst src : Nat) : Nat :=
  mulDiv255 dst (255 - mask) + mulDiv255 src mask

/-- One pixel of a masked paste onto an RGB destination: each color
channel is blended, the result is stored fully opaque. -/
def blendPix (mask : Nat) (dst src : Pix) : Pix :=
  ⟨blendChan mask dst.r src.r, blendChan mask dst.g src.g,
    blendChan mask dst.b src.b, 255⟩

/-- Pointwise masked blend of two pixel lists under a mask-value list
(the three lists walk in lockstep, as the paste loop does). -/
def blendLists : List Pix → List Pix → List Nat → List Pix
  | d :: ds, s :: ss, m :: ms => blendPix m d s :: blendLists ds ss ms
  | _, _, _ => []

/-- `background.paste(img, mask)` for a full-canvas paste of a same-size
source (the only way the script calls it): without a mask the source,
converted to RGB, replaces the canvas outright; with an `L`-mode mask
(here the source's alpha band, as a value list) each pixel is blended —
mask 255 keeps the source, mask 0 keeps the canvas, intermediate values
interpolate. -/
def pilPaste (bg : PILImage) (src : PILImage) (mask : Option (List Nat)) : PILImage :=
  match mask with
  | none => { bg with data := convertToRGBData src }
  | some m => { bg with data := blendLists bg.data (convertToRGBData src) m }

/-- Lines 24–30 of the script: if the mode is `RGBA`, `LA` or `P`, build a
white RGB background of the original size, convert `P` to `RGBA`, and
paste onto the background with `img.split()[-1]` (the alpha band) as mask
when the (possibly converted) image is `RGBA`, and no mask otherwise. -/
def normalizeMode (img : PILImage) : PILImage :=
  if img.mode = Mode.RGBA ∨ img.mode = Mode.LA ∨ img.mode = Mode.P then
    let background := pilNewRGB img.width img.height whitePix
    let img1 := if img.mode = Mode.P then convertPtoRGBA img else img
    let mask : Option (List Nat) :=
      if img1.mode = Mode.RGBA then some (img1.data.map (fun p => p.a)) else none
    pilPaste background img1 mask
  else img

/-- `img.resize((w, h), filter)`: PIL returns a copy when the target size
equals the source size; otherwise it allocates a `w × h` image of the same
mode and fills every output pixel from the resampling kernel. -/
def pilResize (sample : SampleFn) (img : PILImage) (w h : Nat)
    (f : ResampleFilter) : PILImage :=
  if img.width = w ∧ img.height = h then img
  else
    ⟨img.mode, w, h,
      (List.range (w * h)).map (fun i => sample f img w h (i % w) (i / w)),
      img.palette⟩

/-- Python `str.lower()` restricted to the ASCII range, which is all the
extension test needs (`Char.toLower` lowercases exactly `A`–`Z`). -/
def pyLower (s : List Char) : List Char := s.map Char.toLower

/-- Python `str.endswith(suffix)`: the last `suffix.length` characters of
`s` equal `suffix`. -/
def endsWith (s suffix : List Char) : Bool :=
  decide (suffix.length ≤ s.length) && (s.drop (s.length - suffix.length) == suffix)

/-- The destination test of line 41:
`output_path.lower().endswith(".jpg") or output_path.lower().endswith(".jpeg")`. -/
def jpgDest (p : List Char) : Bool :=
  endsWith (pyLower p) ".jpg".data || endsWith (pyLower p) ".jpeg".data

/-- The file extensions whose format PIL's save step recognizes in this
model; saving under any other extension raises (a `ValueError`, caught by
the generic handler). -/
def knownExt (p : List Char) : Bool :=
  [".jpg", ".jpeg", ".png", ".gif", ".bmp", ".webp", ".tif", ".tiff"].any
    (fun e => endsWith (pyLower p) e.data)

/-- Python `str.rfind(c)`: the highest index of `c` in `p`, `-1` when `c`
does not occur. -/
def rfind (p : List Char) (c : Char) : Int :=
  match p.reverse.findIdx? (fun x => x == c) with
  | some i => (p.length : Int) - 1 - (i : Int)
  | none => -1

/-- CPython `posixpath.splitext`: with `sepIndex = p.rfind("/")` and
`dotIndex = p.rfind(".")`, when `dotIndex > sepIndex` the loop scans the
positions from `sepIndex + 1` up to `dotIndex` and splits at `dotIndex`
as soon as it sees a character that is not a dot; if that whole segment is
dots (a dotfile) — or there is no dot after the last separator — the
extension is empty. -/
def splitext (p : List Char) : List Char × List Char :=
  let sepIndex := rfind p '/'
  let dotIndex := rfind p '.'
  if sepIndex < dotIndex then
    let d := dotIndex.toNat
    let start := (sepIndex + 1).toNat
    if ((p.drop start).take (d - start)).all (fun c => c == '.') then (p, [])
    else (p.take d, p.drop d)
  else (p, [])

/-- Lines 36–38 of the script: `base, ext = os.path.splitext(input_path)`
followed by `f"{base}_512x512{ext}"`. -/
def derivedPath (input : List Char) : List Char :=
  (splitext input).1 ++ "_512x512".data ++ (splitext input).2

/-- Contents of a file on disk, at the granularity the script observes:
either it decodes to an image or opening it fails with a decode error. -/
inductive FileData
  | image (img : PILImage)
  | invalid
deriving DecidableEq

/-- A flat filesystem: an association list from paths to file data, most
recent write first. -/
abbrev FS := List (List Char × FileData)

/-- Read the file stored at `p`, if any. -/
def FS.lookup (fs : FS) (p : List Char) : Option FileData :=
  (fs.find? (fun e => e.1 == p)).map (fun e => e.2)

/-- Write (create or overwrite) the file at `p`. -/
def FS.set (fs : FS) (p : List Char) (d : FileData) : FS :=
  (p, d) :: fs

/-- The exceptions the script can see: `FileNotFoundError` from
`Image.open` on a missing path, a decode failure on a non-image file, and
a save failure (unrecognized destination format). -/
inductive PilError
  | fileNotFound
  | decodeError
  | saveError
deriving DecidableEq

/-- `Image.open(path)`: `FileNotFoundError` when the path names no file,
a decode error when the file is not a valid image. -/
def pilOpen (fs : FS) (p : List Char) : Except PilError PILImage :=
  match FS.lookup fs p with
  | none => Except.error PilError.fileNotFound
  | some FileData.invalid => Except.error PilError.decodeError
  | some (FileData.image img) => Except.ok img

/-- The directory component of a path: everything up to and including the
last `/`, or empty (the current directory) when the path has no slash. -/
def dirOf (p : List Char) : List Char :=
  p.take ((rfind p '/') + 1).toNat

/-- Whether the directory a path points into exists: the current directory
always does, and a subdirectory exists when some file on the (flat)
filesystem lives under it.  Empty directories are below this model's
granularity. -/
def dirExists (fs : FS) (p : List Char) : Bool :=
  dirOf p == [] || fs.any (fun e => (dirOf p).isPrefixOf e.1)

/-- `img.save(path, quality=q)`: PIL first deduces the format from the
path's extension — an unrecognized extension raises a `ValueError` — and
then opens the destination with `open(filename, "w+b")`, which raises
`FileNotFoundError` when the output path's directory does not exist.
Encoding is modelled as pixel-faithful (the quality argument shapes the
bytes, not the decoded pixels, and bytes are below this model's
granularity). -/
def pilSave (fs : FS) (p : List Char) (img : PILImage) (_q : Option Nat) :
    Except PilError FS :=
  if knownExt p then
    if dirExists fs p then Except.ok (FS.set fs p (FileData.image img))
    else Except.error PilError.fileNotFound
  else Except.error PilError.saveError

/-- The lines the script prints: the success banner with the target size,
the saved-path line, the two file-size report lines (sizes in bytes are
below this model's granularity), the two error lines, and the three usage
lines (`usageLine` is the `Usage: …` line, `exampleLine 1` and
`exampleLine 2` are the two `Example:` invocation lines). -/
inductive Msg
  | successResized (w h : Nat)
  | savedAs (p : List Char)
  | origSizeKB
  | newSizeKB
  | errNotFound (p : List Char)
  | errProcessing (e : PilError)
  | usageLine
  | exampleLine (n : Nat)
deriving DecidableEq

/-- The observable outcome of one invocation: the filesystem afterwards,
the stdout lines, the `sys.exit` code (`none` when the function returned
normally, so the process later exits 0), the input files opened, and the
save call that was issued (path, image, quality argument), if any. -/
structure RunResult where
  fs : FS
  out : List Msg
  exit : Option Nat
  reads : List (List Char)
  saveCall : Option (List Char × PILImage × Option Nat)
deriving DecidableEq

/-- Lines 10–57 of the script, `resize_image(input_path, output_path=None,
size=(512, 512))`: open, normalize the mode, resample with `LANCZOS`,
derive the output path when none is given, save with `quality=95` for a
(case-insensitively) `.jpg`/`.jpeg` destination and `quality=None`
otherwise, and report.  `FileNotFoundError` raised anywhere in the `try`
block — by `Image.open` on a missing input, but also by the save step when
the output directory does not exist — is caught by the first handler,
which echoes the *input* path; every other exception falls to the generic
handler; both handlers `sys.exit(1)`. -/
def resize_image (sample : SampleFn) (fs : FS) (input : List Char)
    (output : Option (List Char)) (size : Nat × Nat) : RunResult :=
  match pilOpen fs input with
  | Except.error PilError.fileNotFound =>
      ⟨fs, [Msg.errNotFound input], some 1, [input], none⟩
  | Except.error e =>
      ⟨fs, [Msg.errProcessing e], some 1, [input], none⟩
  | Except.ok img =>
      let imgResized :=
        pilResize sample (normalizeMode img) size.1 size.2 ResampleFilter.lanczos
      let outP := output.getD (derivedPath input)
      let q : Option Nat := if jpgDest outP then some 95 else none
      match pilSave fs outP imgResized q with
      | Except.error PilError.fileNotFound =>
          ⟨fs, [Msg.errNotFound input], some 1, [input], some (outP, imgResized, q)⟩
      | Except.error e =>
          ⟨fs, [Msg.errProcessing e], some 1, [input], some (outP, imgResized, q)⟩
      | Except.ok fs2 =>
          ⟨fs2,
            [Msg.successResized size.1 size.2, Msg.savedAs outP,
              Msg.origSizeKB, Msg.newSizeKB],
            none, [input], some (outP, imgResized, q)⟩

/-- Lines 59–69 of the script: with fewer than two entries in `argv` print
the usage text (one `Usage:` line and two example lines) and exit 1;
otherwise run `resize_image` on `argv[1]` with `argv[2]` as output path
when present (later arguments are ignored) and the default size. -/
def scriptMain (sample : SampleFn) (fs : FS) (argv : List (List Char)) : RunResult :=
  match argv with
  | _prog :: input :: rest =>
      resize_image sample fs input rest.head? (512, 512)
  | _ =>
      ⟨fs, [Msg.usageLine, Msg.exampleLine 1, Msg.exampleLine 2], some 1, [], none⟩

/-- The process exit status of one invocation: the `sys.exit` code when
one was raised, otherwise 0 (the interpreter finishing normally). -/
def procExit (r : RunResult) : Nat := r.exit.getD 0

/-- Comparison definition following the spec's words: the whole pipeline
succeeds exactly when an input argument was given, the input path holds a
decodable image, the destination extension names a writable format and the
destination's directory exists. -/
def specSuccess (fs : FS) (argv : List (List Char)) : Bool :=
  match argv with
  | _prog :: input :: rest =>
      (match FS.lookup fs input with
       | some (FileData.image _) =>
           knownExt (rest.head?.getD (derivedPath input)) &&
           dirExists fs (rest.head?.getD (derivedPath input))
       | _ => false)
  | _ => false

/-- The modes whose images the script normalizes (line 24). -/
def modeNeedsNorm (m : Mode) : Bool :=
  m = Mode.RGBA || m = Mode.LA || m = Mode.P

/-- Every stored pixel is fully opaque. -/
def allAlpha255 (img : PILImage) : Bool :=
  img.data.all (fun p => p.a == 255)

/-- A concrete resampling kernel (constant black) used to instantiate the
kernel-parametric theorems at concrete inputs. -/
def constSample : SampleFn := fun _ _ _ _ _ _ => ⟨0, 0, 0, 255⟩

/-- A concrete 1×1 opaque truecolor image used as a test fixture. -/
def rgbImg : PILImage := ⟨Mode.RGB, 1, 1, [⟨1, 2, 3, 255⟩], []⟩

/-- A one-file filesystem holding `a.png` as a decodable image. -/
def fsA : FS := [("a.png".data, FileData.image rgbImg)]

/-! ## Helper lemmas -/

/-- Reading back the path just written returns the written data. -/
theorem FS.lookup_set_self (fs : FS) (p : List Char) (d : FileData) :
    FS.lookup (FS.set fs p d) p = some d := by
  simp [FS.lookup, FS.set, List.find?]

/-- Writing one path leaves every other path's content unchanged. -/
theorem FS.lookup_set_ne (fs : FS) (p q : List Char) (d : FileData)
    (h : p ≠ q) : FS.lookup (FS.set fs p d) q = FS.lookup fs q := by
  simp only [FS.lookup, FS.set, List.find?]
  rw [show (p == q) = false from beq_eq_false_iff_ne.mpr h]

/-- After writing a file at `p`, the directory of `p` exists (the file
itself witnesses it). -/
theorem dirExists_set_self (fs : FS) (p : List Char) (d : FileData) :
    dirExists (FS.set fs p d) p = true := by
  have hpre : (dirOf p).isPrefixOf p = true := by
    rw [List.isPrefixOf_iff_prefix]
    exact List.take_prefix _ _
  simp [dirExists, FS.set, hpre]

/-- The resized image's width is the requested width. -/
theorem pilResize_width (sample : SampleFn) (img : PILImage) (w h : Nat)
    (f : ResampleFilter) : (pilResize sample img w h f).width = w := by
  unfold pilResize
  split
  · next hc => exact hc.1
  · rfl

/-- The resized image's height is the requested height. -/
theorem pilResize_height (sample : SampleFn) (img : PILImage) (w h : Nat)
    (f : ResampleFilter) : (pilResize sample img w h f).height = h := by
  unfold pilResize
  split
  · next hc => exact hc.2
  · rfl

/-- `splitext` splits the path: stem and extension concatenate back to it. -/
theorem splitext_concat (p : List Char) :
    (splitext p).1 ++ (splitext p).2 = p := by
  simp only [splitext]
  split
  · split
    · simp
    · exact List.take_append_drop _ p
  · simp

/-- Every pixel a masked paste produces is stored fully opaque. -/
theorem blendLists_alpha255 (ds ss : List Pix) (ms : List Nat) :
    ((blendLists ds ss ms).all fun p => p.a == 255) = true := by
  induction ds generalizing ss ms with
  | nil => rfl
  | cons d ds ih =>
    cases ss with
    | nil => rfl
    | cons s ss =>
      cases ms with
      | nil => rfl
      | cons m ms => simp [blendLists, blendPix, ih]

/-- If a path ends with a suffix that lowering leaves unchanged, its
lowered form still ends with that suffix. -/
theorem endsWith_pyLower (s t : List Char) (ht : t.map Char.toLower = t)
    (h : endsWith s t = true) : endsWith (pyLower s) t = true := by
  unfold endsWith at h ⊢
  simp only [Bool.and_eq_true, decide_eq_true_eq, beq_iff_eq] at h ⊢
  obtain ⟨hlen, hdrop⟩ := h
  refine ⟨by simpa [pyLower] using hlen, ?_⟩
  calc (pyLower s).drop ((pyLower s).length - t.length)
      = (s.drop (s.length - t.length)).map Char.toLower := by
        simp [pyLower, List.map_drop]
    _ = t := by rw [hdrop, ht]

/-- A successful run of `resize_image` in one equation: with a decodable
input and a recognized destination extension, the run writes the
Lanczos-resampled normalized image at the chosen output path, prints the
success report and does not call `sys.exit`. -/
theorem resize_image_run (sample : SampleFn) (fs : FS) (input : List Char)
    (output : Option (List Char)) (sz : Nat × Nat) (img : PILImage)
    (hdec : FS.lookup fs input = some (FileData.image img))
    (hk : knownExt (output.getD (derivedPath input)) = true)
    (hd : dirExists fs (output.getD (derivedPath input)) = true) :
    resize_image sample fs input output sz =
      ⟨FS.set fs (output.getD (derivedPath input))
          (FileData.image
            (pilResize sample (normalizeMode img) sz.1 sz.2 ResampleFilter.lanczos)),
        [Msg.successResized sz.1 sz.2, Msg.savedAs (output.getD (derivedPath input)),
          Msg.origSizeKB, Msg.newSizeKB],
        none, [input],
        some (output.getD (derivedPath input),
          pilResize sample (normalizeMode img) sz.1 sz.2 ResampleFilter.lanczos,
          if jpgDest (output.getD (derivedPath input)) then some 95 else none)⟩ := by
  unfold resize_image pilOpen
  rw [hdec]
  simp only [pilSave, hk, hd, if_true]

/-- The quality argument of the save call is 95 exactly when the lowered
output path ends in `.jpg` or `.jpeg`, and absent otherwise. -/
theorem saveCall_quality (sample : SampleFn) (fs : FS) (input p : List Char)
    (output : Option (List Char)) (sz : Nat × Nat) (i : PILImage)
    (q : Option Nat)
    (h : (resize_image sample fs input output sz).saveCall = some (p, i, q)) :
    q = if jpgDest p then some 95 else none := by
  unfold resize_image pilOpen at h
  cases hl : FS.lookup fs input with
  | none => rw [hl] at h; simp at h
  | some fd =>
    rw [hl] at h
    cases fd with
    | invalid => simp at h
    | image img =>
      simp only [] at h
      split at h <;>
        · simp only [Option.some.injEq, Prod.mk.injEq] at h
          obtain ⟨hp, -, hq⟩ := h
          subst hp
          exact hq.symm

/-- The path handed to the save call is the given output path when one was
supplied, and the derived path otherwise. -/
theorem saveCall_path (sample : SampleFn) (fs : FS) (input : List Char)
    (output : Option (List Char)) (sz : Nat × Nat) (img : PILImage)
    (hdec : FS.lookup fs input = some (FileData.image img)) :
    ((resize_image sample fs input output sz).saveCall).map Prod.fst
      = some (output.getD (derivedPath input)) := by
  unfold resize_image pilOpen
  rw [hdec]
  simp only []
  split <;> rfl

/-- Mapping a pixel function that forces alpha 255 leaves every pixel fully
opaque. -/
theorem all_map_alpha255 (l : List Pix) (f : Pix → Pix)
    (hf : ∀ p, (f p).a = 255) :
    ((l.map f).all fun p => p.a == 255) = true := by
  induction l with
  | nil => rfl
  | cons x xs ih => simp [hf, ih]

/-! ## Claim theorems -/

/-- C1: for a decodable input image, any requested size with positive
components and a writable destination, the file written by `resize_image`
holds exactly the (mode-normalized) input resampled with the Lanczos filter,
its pixel dimensions equal the requested width and height — no aspect-ratio
logic intervenes — and the run succeeds. -/
theorem resize_image_writes_exact_size (sample : SampleFn) (fs : FS)
    (input : List Char) (output : Option (List Char)) (img : PILImage)
    (w h : Nat)
    (hdec : FS.lookup fs input = some (FileData.image img))
    (hw : 0 < w) (hh : 0 < h)
    (hk : knownExt (output.getD (derivedPath input)) = true)
    (hd : dirExists fs (output.getD (derivedPath input)) = true) :
    FS.lookup (resize_image sample fs input output (w, h)).fs
        (output.getD (derivedPath input)) =
      some (FileData.image
        (pilResize sample (normalizeMode img) w h ResampleFilter.lanczos)) ∧
    (pilResize sample (normalizeMode img) w h ResampleFilter.lanczos).width = w ∧
    (pilResize sample (normalizeMode img) w h ResampleFilter.lanczos).height = h ∧
    (resize_image sample fs input output (w, h)).exit = none := by
  rw [resize_image_run sample fs input output (w, h) img hdec hk hd]
  exact ⟨FS.lookup_set_self _ _ _, pilResize_width _ _ _ _ _,
    pilResize_height _ _ _ _ _, rfl⟩

/-- Closed instance of C1 at a concrete filesystem, image and size. -/
theorem resize_image_writes_exact_size_witness :
    FS.lookup fsA "a.png".data = some (FileData.image rgbImg) ∧
    0 < 1 ∧
    knownExt ((none : Option (List Char)).getD (derivedPath "a.png".data)) = true ∧
    dirExists fsA ((none : Option (List Char)).getD (derivedPath "a.png".data)) = true ∧
    (FS.lookup (resize_image constSample fsA "a.png".data none (1, 1)).fs
        ((none : Option (List Char)).getD (derivedPath "a.png".data)) =
      some (FileData.image
        (pilResize constSample (normalizeMode rgbImg) 1 1 ResampleFilter.lanczos)) ∧
    (pilResize constSample (normalizeMode rgbImg) 1 1 ResampleFilter.lanczos).width = 1 ∧
    (pilResize constSample (normalizeMode rgbImg) 1 1 ResampleFilter.lanczos).height = 1 ∧
    (resize_image constSample fsA "a.png".data none (1, 1)).exit = none) :=
  ⟨by decide, by decide, by decide, by decide,
    resize_image_writes_exact_size constSample fsA "a.png".data none rgbImg 1 1
      (by decide) (by decide) (by decide) (by decide) (by decide)⟩

/-- C2 (code bug): a fully transparent grayscale+alpha pixel is not composited
to white.  The `LA` branch pastes onto the white canvas without a mask, so the
alpha channel is ignored and the gray value lands in the output opaque (first
conjunct: the pixel comes out black); the masked compositing the claim
describes — the paste blend under the image's alpha band — would have left the
white canvas untouched (second conjunct). -/
theorem normalize_LA_ignores_alpha :
    normalizeMode ⟨Mode.LA, 1, 1, [⟨0, 0, 0, 0⟩], []⟩
        = ⟨Mode.RGB, 1, 1, [⟨0, 0, 0, 255⟩], []⟩ ∧
    blendLists [whitePix] (convertToRGBData ⟨Mode.LA, 1, 1, [⟨0, 0, 0, 0⟩], []⟩) [0]
        = [⟨255, 255, 255, 255⟩] := by
  decide

/-- For truecolor+alpha and palette inputs the normalization does composite
through the alpha band: fully transparent pixels become white, fully opaque
pixels keep their color (contrast with `normalize_LA_ignores_alpha`). -/
theorem normalize_RGBA_P_use_alpha :
    normalizeMode ⟨Mode.RGBA, 1, 1, [⟨7, 7, 7, 0⟩], []⟩
        = ⟨Mode.RGB, 1, 1, [⟨255, 255, 255, 255⟩], []⟩ ∧
    normalizeMode ⟨Mode.RGBA, 1, 1, [⟨10, 20, 30, 255⟩], []⟩
        = ⟨Mode.RGB, 1, 1, [⟨10, 20, 30, 255⟩], []⟩ ∧
    normalizeMode ⟨Mode.P, 1, 1, [⟨0, 0, 0, 0⟩], [⟨9, 9, 9, 0⟩]⟩
        = ⟨Mode.RGB, 1, 1, [⟨255, 255, 255, 255⟩], []⟩ := by
  decide

/-- C3: when no output path is supplied, the path handed to the save call is
the input path's stem, then the literal `_512x512` suffix, then the input
path's extension — and stem and extension reassemble exactly to the input
path, so the suffix is inserted between them. -/
theorem derived_output_path (sample : SampleFn) (fs : FS) (input : List Char)
    (img : PILImage) (sz : Nat × Nat)
    (hdec : FS.lookup fs input = some (FileData.image img)) :
    ((resize_image sample fs input none sz).saveCall).map Prod.fst
        = some ((splitext input).1 ++ "_512x512".data ++ (splitext input).2) ∧
    (splitext input).1 ++ (splitext input).2 = input := by
  refine ⟨?_, splitext_concat input⟩
  exact saveCall_path sample fs input none sz img hdec

/-- Closed instance of C3 at a concrete filesystem and input path. -/
theorem derived_output_path_witness :
    FS.lookup fsA "a.png".data = some (FileData.image rgbImg) ∧
    (((resize_image constSample fsA "a.png".data none (1, 1)).saveCall).map Prod.fst
        = some ((splitext "a.png".data).1 ++ "_512x512".data ++ (splitext "a.png".data).2) ∧
     (splitext "a.png".data).1 ++ (splitext "a.png".data).2 = "a.png".data) :=
  ⟨by decide,
    derived_output_path constSample fsA "a.png".data rgbImg (1, 1) (by decide)⟩

/-- C4 counterexample: with an existing, decodable input `a.png` and the
explicit output `nodir/out.png`, whose directory does not exist, the save
step raises file-not-found inside the `try` block and the first handler
fires: the Not-Found line echoing the *input* path is printed and the
process exits 1 although the input path resolves to an existing file — so
the claimed equivalence between the Not-Found report and a missing input
fails. -/
theorem notFound_without_missing_input :
    ¬ (((resize_image constSample fsA "a.png".data
            (some "nodir/out.png".data) (1, 1)).out
          = [Msg.errNotFound "a.png".data] ∧
        (resize_image constSample fsA "a.png".data
            (some "nodir/out.png".data) (1, 1)).exit = some 1 ∧
        (resize_image constSample fsA "a.png".data
            (some "nodir/out.png".data) (1, 1)).fs = fsA)
        ↔ FS.lookup fsA "a.png".data = none) := by
  decide

/-- C4 (amended): a missing input always produces the Not-Found report —
the error line echoing the input path, a message distinct from the generic
processing error — with exit status 1 and no write; and every Not-Found
report arises either from a missing input or from the save step's own
file-not-found (the output path's directory does not exist), and in both
cases the filesystem is untouched and the exit status is 1. -/
theorem notFound_report (sample : SampleFn) (fs : FS)
    (input : List Char) (output : Option (List Char)) (sz : Nat × Nat) :
    (FS.lookup fs input = none →
      ((resize_image sample fs input output sz).out = [Msg.errNotFound input] ∧
       (resize_image sample fs input output sz).exit = some 1 ∧
       (resize_image sample fs input output sz).fs = fs)) ∧
    ((resize_image sample fs input output sz).out = [Msg.errNotFound input] →
      ((FS.lookup fs input = none ∨
        dirExists fs (output.getD (derivedPath input)) = false) ∧
       (resize_image sample fs input output sz).exit = some 1 ∧
       (resize_image sample fs input output sz).fs = fs)) := by
  unfold resize_image pilOpen
  cases hl : FS.lookup fs input with
  | none => simp
  | some fd =>
    cases fd with
    | invalid => simp
    | image img =>
      simp only []
      unfold pilSave
      by_cases hk : knownExt (output.getD (derivedPath input)) = true
      · by_cases hd : dirExists fs (output.getD (derivedPath input)) = true
        · simp [hk, hd]
        · simp only [Bool.not_eq_true] at hd
          simp [hk, hd]
      · simp only [Bool.not_eq_true] at hk
        simp [hk]

/-- Closed instance of C4 (amended) on an empty filesystem: the missing
input fires the Not-Found report, and the report in turn certifies a
missing input or missing output directory, exit 1 and no write. -/
theorem notFound_report_witness :
    ((resize_image constSample [] "a.png".data none (1, 1)).out
        = [Msg.errNotFound "a.png".data] ∧
     (resize_image constSample [] "a.png".data none (1, 1)).exit = some 1 ∧
     (resize_image constSample [] "a.png".data none (1, 1)).fs = []) ∧
    ((FS.lookup ([] : FS) "a.png".data = none ∨
        dirExists [] ((none : Option (List Char)).getD (derivedPath "a.png".data))
          = false) ∧
     (resize_image constSample [] "a.png".data none (1, 1)).exit = some 1 ∧
     (resize_image constSample [] "a.png".data none (1, 1)).fs = []) :=
  ⟨(notFound_report constSample [] "a.png".data none (1, 1)).1 (by decide),
   (notFound_report constSample [] "a.png".data none (1, 1)).2 (by decide)⟩

/-- C5: a save call to a destination ending in `.jpg` or `.jpeg` carries
quality 95; a save call to a destination whose extension is not a jpg/jpeg
variant (its lowered form ends in neither) passes no quality value. -/
theorem save_quality_rule (sample : SampleFn) (fs : FS) (input p : List Char)
    (output : Option (List Char)) (sz : Nat × Nat) (i : PILImage)
    (q : Option Nat)
    (h : (resize_image sample fs input output sz).saveCall = some (p, i, q)) :
    ((endsWith p ".jpg".data = true ∨ endsWith p ".jpeg".data = true) →
      q = some 95) ∧
    (jpgDest p = false → q = none) := by
  have hq := saveCall_quality sample fs input p output sz i q h
  constructor
  · intro hj
    have hlow : jpgDest p = true := by
      unfold jpgDest
      rcases hj with hj | hj
      · simp [endsWith_pyLower p ".jpg".data (by decide) hj]
      · simp [endsWith_pyLower p ".jpeg".data (by decide) hj]
    rw [hq]
    simp [hlow]
  · intro hj
    rw [hq]
    simp [hj]

/-- Closed instance of C5 at a `.jpg` destination. -/
theorem save_quality_rule_witness :
    (resize_image constSample fsA "a.png".data (some "out.jpg".data) (1, 1)).saveCall
        = some ("out.jpg".data,
            pilResize constSample (normalizeMode rgbImg) 1 1 ResampleFilter.lanczos,
            some 95) ∧
    (((endsWith "out.jpg".data ".jpg".data = true ∨
        endsWith "out.jpg".data ".jpeg".data = true) →
        (some 95 : Option Nat) = some 95) ∧
     (jpgDest "out.jpg".data = false → (some 95 : Option Nat) = none)) :=
  ⟨by decide,
    save_quality_rule constSample fsA "a.png".data "out.jpg".data
      (some "out.jpg".data) (1, 1)
      (pilResize constSample (normalizeMode rgbImg) 1 1 ResampleFilter.lanczos)
      (some 95) (by decide)⟩

/-- C6: the process exit status is 0 exactly when the whole pipeline succeeds
(an input argument was given, it decodes, and the destination is writable);
every failure path — usage error, file-not-found, decode failure, save
failure — exits with status 1, with no distinction between failure kinds. -/
theorem exit_code_correct (sample : SampleFn) (fs : FS)
    (argv : List (List Char)) :
    procExit (scriptMain sample fs argv)
      = if specSuccess fs argv then 0 else 1 := by
  cases argv with
  | nil => rfl
  | cons prog rest1 =>
    cases rest1 with
    | nil => rfl
    | cons input rest =>
      have hmain : scriptMain sample fs (prog :: input :: rest)
          = resize_image sample fs input rest.head? (512, 512) := rfl
      have hspec : specSuccess fs (prog :: input :: rest)
          = (match FS.lookup fs input with
             | some (FileData.image _) =>
                 knownExt (rest.head?.getD (derivedPath input)) &&
                 dirExists fs (rest.head?.getD (derivedPath input))
             | _ => false) := rfl
      rw [hmain, hspec]
      unfold resize_image pilOpen
      cases hl : FS.lookup fs input with
      | none => rfl
      | some fd =>
        cases fd with
        | invalid => rfl
        | image img =>
          simp only []
          unfold pilSave
          by_cases hk : knownExt (rest.head?.getD (derivedPath input)) = true
          · by_cases hd : dirExists fs (rest.head?.getD (derivedPath input)) = true
            · simp [hk, hd, procExit]
            · simp only [Bool.not_eq_true] at hd
              simp [hk, hd, procExit]
          · simp only [Bool.not_eq_true] at hk
            simp [hk, procExit]

/-- C7: the image handed to the resampling step never carries an alpha
channel or palette indices: modes that trigger normalization come out as
truecolor with every stored pixel fully opaque, and all other modes pass
through untouched (and already carry neither alpha nor palette). -/
theorem normalize_invariant (img : PILImage) :
    modeNeedsNorm (normalizeMode img).mode = false ∧
    (modeNeedsNorm img.mode = true →
      (normalizeMode img).mode = Mode.RGB ∧
      allAlpha255 (normalizeMode img) = true) := by
  obtain ⟨m, w, h, d, pal⟩ := img
  cases m with
  | L => exact ⟨rfl, fun hc => by simp [modeNeedsNorm] at hc⟩
  | RGB => exact ⟨rfl, fun hc => by simp [modeNeedsNorm] at hc⟩
  | RGBA => exact ⟨rfl, fun _ => ⟨rfl, blendLists_alpha255 _ _ _⟩⟩
  | LA =>
    exact ⟨rfl, fun _ =>
      ⟨rfl, all_map_alpha255 d (fun p => ⟨p.r, p.r, p.r, 255⟩) (fun p => rfl)⟩⟩
  | P => exact ⟨rfl, fun _ => ⟨rfl, blendLists_alpha255 _ _ _⟩⟩

/-- Closed instance of C7 at a concrete transparent truecolor+alpha image. -/
theorem normalize_invariant_witness :
    modeNeedsNorm (normalizeMode ⟨Mode.RGBA, 1, 1, [⟨7, 7, 7, 0⟩], []⟩).mode
        = false ∧
    ((normalizeMode ⟨Mode.RGBA, 1, 1, [⟨7, 7, 7, 0⟩], []⟩).mode = Mode.RGB ∧
      allAlpha255 (normalizeMode ⟨Mode.RGBA, 1, 1, [⟨7, 7, 7, 0⟩], []⟩) = true) :=
  ⟨(normalize_invariant ⟨Mode.RGBA, 1, 1, [⟨7, 7, 7, 0⟩], []⟩).1,
    (normalize_invariant ⟨Mode.RGBA, 1, 1, [⟨7, 7, 7, 0⟩], []⟩).2 (by decide)⟩

/-- C8: running the operation twice with the same input file and the same
explicit output path (a path other than the input's) writes an image with
identical pixel dimensions, identical mode and identical pixel content on
both runs. -/
theorem resize_image_idempotent (sample : SampleFn) (fs : FS)
    (input out : List Char) (img : PILImage) (sz : Nat × Nat)
    (hdec : FS.lookup fs input = some (FileData.image img))
    (hne : out ≠ input)
    (hk : knownExt out = true)
    (hd : dirExists fs out = true) :
    ∃ i1 i2,
      FS.lookup (resize_image sample fs input (some out) sz).fs out
          = some (FileData.image i1) ∧
      FS.lookup (resize_image sample
            (resize_image sample fs input (some out) sz).fs
            input (some out) sz).fs out
          = some (FileData.image i2) ∧
      i1.width = i2.width ∧ i1.height = i2.height ∧
      i1.mode = i2.mode ∧ i1.data = i2.data := by
  have hk' : knownExt ((some out).getD (derivedPath input)) = true := hk
  have hd' : dirExists fs ((some out).getD (derivedPath input)) = true := hd
  have h1 := resize_image_run sample fs input (some out) sz img hdec hk' hd'
  have hdec2 : FS.lookup (resize_image sample fs input (some out) sz).fs input
      = some (FileData.image img) := by
    rw [h1]
    rw [show ((some out).getD (derivedPath input)) = out from rfl]
    rw [FS.lookup_set_ne _ _ _ _ hne]
    exact hdec
  have hd2 : dirExists (resize_image sample fs input (some out) sz).fs
      ((some out).getD (derivedPath input)) = true := by
    rw [h1]
    rw [show ((some out).getD (derivedPath input)) = out from rfl]
    exact dirExists_set_self _ _ _
  have h2 := resize_image_run sample
    (resize_image sample fs input (some out) sz).fs input (some out) sz img
    hdec2 hk' hd2
  refine ⟨pilResize sample (normalizeMode img) sz.1 sz.2 ResampleFilter.lanczos,
    pilResize sample (normalizeMode img) sz.1 sz.2 ResampleFilter.lanczos,
    ?_, ?_, rfl, rfl, rfl, rfl⟩
  · rw [h1]
    exact FS.lookup_set_self _ _ _
  · rw [h2]
    exact FS.lookup_set_self _ _ _

/-- Closed instance of C8 at a concrete filesystem, distinct input and
output paths. -/
theorem resize_image_idempotent_witness :
    FS.lookup fsA "a.png".data = some (FileData.image rgbImg) ∧
    "b.png".data ≠ "a.png".data ∧
    knownExt "b.png".data = true ∧
    dirExists fsA "b.png".data = true ∧
    (∃ i1 i2,
      FS.lookup (resize_image constSample fsA "a.png".data
          (some "b.png".data) (1, 1)).fs "b.png".data
          = some (FileData.image i1) ∧
      FS.lookup (resize_image constSample
            (resize_image constSample fsA "a.png".data (some "b.png".data) (1, 1)).fs
            "a.png".data (some "b.png".data) (1, 1)).fs "b.png".data
          = some (FileData.image i2) ∧
      i1.width = i2.width ∧ i1.height = i2.height ∧
      i1.mode = i2.mode ∧ i1.data = i2.data) :=
  ⟨by decide, by decide, by decide, by decide,
    resize_image_idempotent constSample fsA "a.png".data "b.png".data rgbImg
      (1, 1) (by decide) (by decide) (by decide) (by decide)⟩

/-- C9: invoked with no argument beyond the program name, the program prints
the usage text — the `Usage:` line followed by the two example lines — to
standard output, exits with status 1, opens no file and leaves the
filesystem untouched. -/
theorem usage_on_no_args (sample : SampleFn) (fs : FS) (prog : List Char) :
    scriptMain sample fs [prog] =
      ⟨fs, [Msg.usageLine, Msg.exampleLine 1, Msg.exampleLine 2],
        some 1, [], none⟩ :=
  rfl

/-- C10: the `.jpg`/`.jpeg` quality test is case-insensitive on the output
path: whenever the lowered destination ends in `.jpg` or `.jpeg`, the save
call carries quality 95. -/
theorem save_quality_case_insensitive (sample : SampleFn) (fs : FS)
    (input p : List Char) (output : Option (List Char)) (sz : Nat × Nat)
    (i : PILImage) (q : Option Nat)
    (h : (resize_image sample fs input output sz).saveCall = some (p, i, q))
    (hj : endsWith (pyLower p) ".jpg".data = true ∨
          endsWith (pyLower p) ".jpeg".data = true) :
    q = some 95 := by
  rw [saveCall_quality sample fs input p output sz i q h]
  have hlow : jpgDest p = true := by
    unfold jpgDest
    rcases hj with hj | hj <;> simp [hj]
  simp [hlow]

/-- Closed instance of C10 at the uppercase destination `PHOTO.JPG`. -/
theorem save_quality_case_insensitive_witness :
    (resize_image constSample fsA "a.png".data (some "PHOTO.JPG".data) (1, 1)).saveCall
        = some ("PHOTO.JPG".data,
            pilResize constSample (normalizeMode rgbImg) 1 1 ResampleFilter.lanczos,
            some 95) ∧
    (endsWith (pyLower "PHOTO.JPG".data) ".jpg".data = true ∨
      endsWith (pyLower "PHOTO.JPG".data) ".jpeg".data = true) ∧
    (some 95 : Option Nat) = some 95 :=
  ⟨by decide, Or.inl (by decide),
    save_quality_case_insensitive constSample fsA "a.png".data "PHOTO.JPG".data
      (some "PHOTO.JPG".data) (1, 1)
      (pilResize constSample (normalizeMode rgbImg) 1 1 ResampleFilter.lanczos)
      (some 95) (by decide) (Or.inl (by decide))⟩
